import Mathlib

/-!
Verification of the RoboWrapper job pipeline (src/RoboWrapper.py).

The Python program is shallowly embedded below.  Host interaction
(mounted volumes, filesystem queries, environment variables, the clock,
the YAML loader and the robocopy child process) is abstracted into an
explicit `Env` record of pure functions, so every program function
becomes a total, executable Lean function of the environment.

String manipulation follows Python semantics: `pyReplace` models
`str.replace` (left-to-right, non-overlapping, all occurrences),
`splitdrive`, `isabs` and `ntJoin` model the Python 2.7 `ntpath`
functions used on Windows, and `pySplitSpace` models `str.split(' ')`.
-/

/-- Python `str.replace` on character lists, driven by explicit fuel.
With the pattern non-empty, consuming a match removes at least one
character, so fuel equal to the length of the subject suffices. -/
def pyReplaceAux (rep pat : List Char) : Nat → List Char → List Char
  | 0, s => s
  | fuel + 1, s =>
    if pat ≠ [] ∧ pat.isPrefixOf s then
      rep ++ pyReplaceAux rep pat fuel (s.drop pat.length)
    else
      match s with
      | [] => []
      | c :: rest => c :: pyReplaceAux rep pat fuel rest

/-- Python `s.replace(pat, rep)`. -/
def pyReplace (s pat rep : String) : String :=
  ⟨pyReplaceAux rep.data pat.data s.data.length s.data⟩

/-- Python 2.7 `ntpath.splitdrive`: a drive is present exactly when the
second character is a colon. -/
def splitdriveL : List Char → List Char × List Char
  | c :: c2 :: rest => if c2 = ':' then ([c, ':'], rest) else ([], c :: c2 :: rest)
  | p => ([], p)

/-- `os.path.splitdrive` on strings. -/
def splitdrive (p : String) : String × String :=
  ((splitdriveL p.data).1.asString, (splitdriveL p.data).2.asString)

def isSep (c : Char) : Bool := c = '/' || c = '\\'

def firstIsSep : List Char → Bool
  | c :: _ => isSep c
  | [] => false

def lastIsSep (l : List Char) : Bool :=
  match l.getLast? with
  | some c => isSep c
  | none => false

def secondIsColon : List Char → Bool
  | _ :: ':' :: _ => true
  | _ => false

/-- Python 2.7 `ntpath.isabs`. -/
def isabsL (p : List Char) : Bool :=
  firstIsSep (splitdriveL p).2

/-- One step of Python 2.7 `ntpath.join`: join `b` onto `path`. -/
def join2L (path b : List Char) : List Char :=
  let bWins : Bool :=
    if path = [] then true
    else if isabsL b then
      if !(secondIsColon path) || secondIsColon b then true
      else if path.length > 3 || (path.length == 3 && !(lastIsSep path)) then true
      else false
    else false
  if bWins then b
  else if lastIsSep path then
    (if firstIsSep b then path ++ b.drop 1 else path ++ b)
  else if path.getLast? = some ':' then path ++ b
  else if b ≠ [] then
    (if firstIsSep b then path ++ b else path ++ '\\' :: b)
  else path ++ ['\\']

/-- `os.path.join(a, b, c)` as used at ParseLocations. -/
def ntJoin (a b c : String) : String :=
  (join2L (join2L a.data b.data) c.data).asString

/-- Python `s.split(' ')` helper on character lists. -/
def splitSpacesL : List Char → List Char → List (List Char)
  | [], cur => [cur.reverse]
  | c :: rest, cur =>
    if c = ' ' then cur.reverse :: splitSpacesL rest []
    else splitSpacesL rest (c :: cur)

/-- Python `s.split(' ')`. -/
def pySplitSpace (s : String) : List String :=
  (splitSpacesL s.data []).map List.asString

/-- Python `s.endswith(t)`. -/
def pyEndsWith (s t : String) : Bool :=
  t.data.isSuffixOf s.data

/-- `errno.EACCES` on Windows and POSIX. -/
def EACCES : Nat := 13

deriving instance DecidableEq for Except

/-- One mounted volume as reported by WMI `Win32_LogicalDisk`. -/
structure Volume where
  Name : String
  VolumeSerialNumber : String
  VolumeName : String
deriving Repr, DecidableEq

/-- One `source:` or `destination:` section of a job file.  Each key is
optional in the YAML mapping. -/
structure Location where
  path : Option String
  serial : Option String
  name : Option String
  flag : Option String
deriving Repr, DecidableEq

/-- The optional `settings:` section. -/
structure SettingsSection where
  time_format : Option String
deriving Repr, DecidableEq

/-- The optional `robocopy:` section. -/
structure RobocopySection where
  options : Option String
  log : Option String
  files : Option String
deriving Repr, DecidableEq

/-- A parsed job file: the top-level YAML mapping. -/
structure JobDesc where
  name : Option String
  source : Option Location
  destination : Option Location
  settings : Option SettingsSection
  robocopy : Option RobocopySection
deriving Repr, DecidableEq

/-- The derived `job['run']` dictionary.  In Python the four path/drive
entries do not exist until ParseLocations assigns them; they are
initialised to the empty string here and RunJob's call order guarantees
ParseLocations writes them before anything reads them. -/
structure RunSettings where
  options : List String
  file_types : String
  time_format : String
  time : Nat
  src_path : String
  dst_path : String
  src_drive : String
  dst_drive : String
deriving Repr, DecidableEq

/-- A job together with its derived run settings. -/
structure JobState where
  desc : JobDesc
  run : RunSettings
deriving Repr, DecidableEq

/-- The Python exceptions that can cross function boundaries here:
`RoboException` (with its message), `KeyError` from a dict lookup, and
`IOError` with an errno. -/
inductive PyExc where
  | robo (msg : String)
  | keyError
  | ioError (err : Nat)
deriving Repr, DecidableEq

/-- Outcome of `os.path.isfile` plus `open` plus `LoadJob` on a job
file: the open call raised `IOError`, or YAML parsing produced `none`
(parse error or empty document), or a parsed job. -/
inductive LoadOutcome where
  | ioError (err : Nat)
  | parsed (j : Option JobDesc)
deriving Repr, DecidableEq

/-- The host environment the program runs against. -/
structure Env where
  volumes : List Volume
  isfile : String → Bool
  pathExists : String → Bool
  getenv : String → Option String
  strftime : Nat → String → String
  now : Nat
  load : String → LoadOutcome
  returncode : Int

/-- Observable effects of one RunJob call: whether DoRobocopy was
entered, whether a child process was spawned, the `path` arguments
passed to CheckFlag, and the substituted flag filenames tested. -/
structure Trace where
  robocopyCalled : Bool := false
  spawned : Bool := false
  flagArgs : List String := []
  flagsChecked : List String := []
deriving Repr, DecidableEq

/-- Result of RunJob: a returned boolean, or an exception that escaped. -/
inductive RunOutcome where
  | result (b : Bool)
  | raised (e : PyExc)
deriving Repr, DecidableEq

/-- Environment variable names eligible for expansion (VALID_ENV_VARS). -/
def VALID_ENV_VARS : List String :=
  ["SYSTEMROOT", "TMP", "COMPUTERNAME", "USERDOMAIN",
   "PROGRAMFILES", "PROGRAMFILES(X86)", "COMMONPROGRAMFILES(X86)",
   "ALLUSERSPROFILE", "LOCALAPPDATA", "HOMEPATH", "PROGRAMW6432",
   "USERNAME", "PROGRAMDATA", "WINDIR", "APPDATA", "HOMEDRIVE",
   "SYSTEMDRIVE", "COMMONPROGRAMW6432", "PUBLIC", "USERPROFILE"]

/-- FindDriveFromSerial: first volume whose serial matches, else None. -/
def FindDriveFromSerial : List Volume → String → Option String
  | [], _ => none
  | v :: rest, serial =>
    if v.VolumeSerialNumber = serial then some v.Name
    else FindDriveFromSerial rest serial

/-- FindDriveFromName: first volume whose label matches, else None. -/
def FindDriveFromName : List Volume → String → Option String
  | [], _ => none
  | v :: rest, nm =>
    if v.VolumeName = nm then some v.Name
    else FindDriveFromName rest nm

/-- Python truthiness of the lookup result: `if found:` is taken for a
non-None, non-empty string. -/
def truthyDrive : Option String → Option String
  | some d => if d = "" then none else some d
  | none => none

/-- The RoboException raised when no drive matched.  (The source text
of the message reads "Couldn't"; the apostrophe is elided here, the
attached criteria list is modelled exactly.) -/
def driveNotFound (tried : List String) : Except PyExc String :=
  .error (.robo ("Could not find drive letter, tried: " ++ String.intercalate ", " tried))

/-- The `name` half of ResolveDriveLetter, reached when the serial
lookup was skipped or produced a falsy value. -/
def nameLookup (vols : List Volume) (options : Location) (tried : List String) :
    Except PyExc String :=
  match options.name with
  | some n =>
    let tried := tried ++ ["name: " ++ n]
    match truthyDrive (FindDriveFromName vols n) with
    | some d => .ok d
    | none => driveNotFound tried
  | none => driveNotFound tried

/-- ResolveDriveLetter: serial first, then name, else RoboException. -/
def ResolveDriveLetter (vols : List Volume) (options : Location) :
    Except PyExc String :=
  match options.serial with
  | some s =>
    let tried := ["serial: " ++ s]
    match truthyDrive (FindDriveFromSerial vols s) with
    | some d => .ok d
    | none => nameLookup vols options tried
  | none => nameLookup vols options []

/-- CheckFlag.  Also returns the substituted flag filename that was
tested, for tracing; `none` when the feature is unused. -/
def CheckFlag (env : Env) (options : Location) (path : String) :
    Bool × Option String :=
  match options.flag with
  | none => (true, none)
  | some f =>
    let f := pyReplace f "$drive$" (splitdrive path).1
    let f := pyReplace f "$path$" path
    (env.isfile f, some f)

/-- The robocopy argument vector built by DoRobocopy. -/
def RobocopyCmd (st : JobState) : List String :=
  ["robocopy", st.run.src_path, st.run.dst_path, st.run.file_types] ++ st.run.options

/-- DoRobocopy: returns (success verdict, whether a process spawned). -/
def DoRobocopy (env : Env) (st : JobState) (dry_run : Bool) : Bool × Bool :=
  if dry_run then (true, false)
  else if env.returncode ≥ 8 then (false, true)
  else (true, true)

/-- ValidateJob: required settings, checked in source order. -/
def ValidateJob (j : JobDesc) : Except PyExc Bool :=
  if j.name = none then .error (.robo "A name is required")
  else
    match j.source with
    | none => .error (.robo "Source settings missing!")
    | some s =>
      match j.destination with
      | none => .error (.robo "Destination settings missing!")
      | some d =>
        if s.path = none then .error (.robo "Source path not defined")
        else if d.path = none then .error (.robo "Destination path not defined")
        else .ok true

/-- Helper for ExpandEnvironmentVars: fold the allow-list, replacing
each `$VAR$` whose value is present; a missing variable is skipped
(the Python code catches the KeyError and passes). -/
def expandList (g : String → Option String) : List String → String → String
  | [], p => p
  | var :: rest, p =>
    match g var with
    | some v => expandList g rest (pyReplace p ("$" ++ var ++ "$") v)
    | none => expandList g rest p

/-- ExpandEnvironmentVars. -/
def ExpandEnvironmentVars (g : String → Option String) (path : String) : String :=
  expandList g VALID_ENV_VARS path

/-- The formatted timestamp a substitution over `st` uses. -/
def timestampOf (env : Env) (st : JobState) : String :=
  env.strftime st.run.time st.run.time_format

/-- SubstitutePath. -/
def SubstitutePath (env : Env) (path : String) (st : JobState) : String :=
  let p := pyReplace path "$src_path$" st.run.src_path
  let p := pyReplace p "$dst_path$" st.run.dst_path
  let p := pyReplace p "$src_drive$" st.run.src_drive
  let p := pyReplace p "$dst_drive$" st.run.dst_drive
  let p := pyReplace p "$timestamp$" (timestampOf env st)
  ExpandEnvironmentVars env.getenv p

/-- ParseSettings: optional `settings.time_format` override. -/
def ParseSettings (st : JobState) : JobState :=
  match st.desc.settings.bind (fun s => s.time_format) with
  | some f => { st with run := { st.run with time_format := f } }
  | none => st

/-- ParseRobocopyOptions: the three independently optional settings. -/
def ParseRobocopyOptions (env : Env) (st : JobState) : JobState :=
  let st :=
    match st.desc.robocopy.bind (fun r => r.options) with
    | some o => { st with run := { st.run with options := pySplitSpace o } }
    | none => st
  let st :=
    match st.desc.robocopy.bind (fun r => r.log) with
    | some l =>
      let lp := SubstitutePath env l st
      { st with run := { st.run with options := st.run.options ++ ["/LOG:" ++ lp] } }
    | none => st
  match st.desc.robocopy.bind (fun r => r.files) with
  | some f => { st with run := { st.run with file_types := f } }
  | none => st

/-- ParseLocations, in source evaluation order: read and expand both
paths, resolve the source drive, resolve the destination drive, then
require the source path to exist.  A missing dict key raises KeyError
(unreachable after ValidateJob). -/
def ParseLocations (env : Env) (st : JobState) : Except PyExc JobState :=
  match st.desc.source with
  | none => .error .keyError
  | some src =>
    match src.path with
    | none => .error .keyError
    | some sp0 =>
      match st.desc.destination with
      | none => .error .keyError
      | some dst =>
        match dst.path with
        | none => .error .keyError
        | some dp0 =>
          let spath0 := ExpandEnvironmentVars env.getenv sp0
          let dpath0 := ExpandEnvironmentVars env.getenv dp0
          let srcRes : Except PyExc (String × String) :=
            if src.serial.isSome || src.name.isSome then
              match ResolveDriveLetter env.volumes src with
              | .ok dr => .ok (dr, ntJoin dr "\\" spath0)
              | .error e => .error e
            else .ok ((splitdrive spath0).1, spath0)
          match srcRes with
          | .error e => .error e
          | .ok (sdrive, spath) =>
            let dstRes : Except PyExc (String × String) :=
              if dst.serial.isSome || dst.name.isSome then
                match ResolveDriveLetter env.volumes dst with
                | .ok dr => .ok (dr, ntJoin dr "\\" dpath0)
                | .error e => .error e
              else .ok ((splitdrive dpath0).1, dpath0)
            match dstRes with
            | .error e => .error e
            | .ok (ddrive, dpath) =>
              if env.pathExists spath then
                .ok { st with run :=
                  { st.run with
                    src_path := spath, dst_path := dpath,
                    src_drive := sdrive, dst_drive := ddrive } }
              else .error (.robo ("Source does not exist: " ++ spath))

/-- DefaultJobSettings: defaults plus the single timestamp capture. -/
def DefaultJobSettings (env : Env) (j : JobDesc) : JobState :=
  { desc := j
  , run :=
    { options := []
    , file_types := "*.*"
    , time_format := "%Y-%m-%dT%H%M%S%z"
    , time := env.now
    , src_path := "", dst_path := "", src_drive := "", dst_drive := "" } }

/-- The guarded build sequence of RunJob (lines 367-370 of the source):
DefaultJobSettings, ParseSettings, ParseLocations, ParseRobocopyOptions,
with any exception propagating out. -/
def BuildJob (env : Env) (j : JobDesc) : Except PyExc JobState :=
  match ParseLocations env (ParseSettings (DefaultJobSettings env j)) with
  | .error e => .error e
  | .ok st => .ok (ParseRobocopyOptions env st)

/-- RunJob.  Only RoboException is converted into `False`; an IOError
with errno other than EACCES is re-raised by the source and any other
non-Robo exception would also escape. -/
def RunJob (env : Env) (job_file : String) (dry_run : Bool) :
    RunOutcome × Trace :=
  if !(env.isfile job_file) then (.result false, {})
  else
    match env.load job_file with
    | .ioError e =>
      if e = EACCES then (.result false, {}) else (.raised (.ioError e), {})
    | .parsed none => (.result false, {})
    | .parsed (some j) =>
      match ValidateJob j with
      | .error (.robo _) => (.result false, {})
      | .error e => (.raised e, {})
      | .ok _ =>
        match BuildJob env j with
        | .error (.robo _) => (.result false, {})
        | .error e => (.raised e, {})
        | .ok st =>
          match st.desc.source, st.desc.destination with
          | some srcLoc, some dstLoc =>
            let srcCheck := CheckFlag env srcLoc st.run.src_drive
            if !srcCheck.1 then
              (.result false,
               { flagArgs := [st.run.src_drive],
                 flagsChecked := srcCheck.2.toList })
            else
              let dstCheck := CheckFlag env dstLoc st.run.dst_drive
              if !dstCheck.1 then
                (.result false,
                 { flagArgs := [st.run.src_drive, st.run.dst_drive],
                   flagsChecked := srcCheck.2.toList ++ dstCheck.2.toList })
              else
                let robo := DoRobocopy env st dry_run
                (.result robo.1,
                 { robocopyCalled := true, spawned := robo.2,
                   flagArgs := [st.run.src_drive, st.run.dst_drive],
                   flagsChecked := srcCheck.2.toList ++ dstCheck.2.toList })
          | _, _ => (.raised .keyError, {})

/-- The per-job loop of main (lines 434-446), with the succeeded and
failed tallies.  The source tests `file.endswith(".yaml")` where `file`
is the loop variable left over from the preceding glob loop, so the
extension test is against that leftover name, not the current job; the
leftover is the `lastFile` parameter here.  A job whose RunJob raises
aborts the batch (nothing catches it). -/
def mainLoop (env : Env) (dry : Bool) (lastFile : String) :
    List String → Nat × Nat → Except PyExc (Nat × Nat)
  | [], acc => .ok acc
  | j :: rest, acc =>
    if pyEndsWith lastFile ".yaml" then
      match (RunJob env j dry).1 with
      | .result true => mainLoop env dry lastFile rest (acc.1 + 1, acc.2)
      | .result false => mainLoop env dry lastFile rest (acc.1, acc.2 + 1)
      | .raised e => .error e
    else
      mainLoop env dry lastFile rest acc

/-!  Spec-side comparators.  These two definitions follow the wording of
the specification (as amended), to be proved equal to the program
definitions above; they are deliberately structured differently. -/

/-- Drive resolution as the amended spec words it: the serial criterion
is consulted first and yields the first exact serial match whose mount
path is non-empty; otherwise the label criterion yields the first exact
label match whose mount path is non-empty; otherwise no drive. -/
def ResolveSpec (vols : List Volume) (loc : Location) : Option String :=
  match loc.serial.bind (fun s => truthyDrive (FindDriveFromSerial vols s)) with
  | some d => some d
  | none => loc.name.bind (fun n => truthyDrive (FindDriveFromName vols n))

/-- The criteria a resolution attempt tries, for the DriveNotFound
diagnostic. -/
def triedCriteria (loc : Location) : List String :=
  (match loc.serial with | some s => ["serial: " ++ s] | none => []) ++
  (match loc.name with | some n => ["name: " ++ n] | none => [])

/-- Resolution of one location, as the (amended) spec words it: expand
environment values in the literal path; when identity criteria are
present, obtain the drive from the Drive Resolver and join it with the
path under Windows join rules (the path wins when it is itself absolute
and carries a drive specifier); otherwise parse the drive out of the
literal path.  Yields (drive, resolved path). -/
def ResolveLocationSpec (env : Env) (loc : Location) :
    Except PyExc (String × String) :=
  match loc.path with
  | none => .error .keyError
  | some p =>
    let ep := ExpandEnvironmentVars env.getenv p
    if loc.serial.isSome || loc.name.isSome then
      match ResolveDriveLetter env.volumes loc with
      | .ok d => .ok (d, ntJoin d "\\" ep)
      | .error e => .error e
    else .ok ((splitdrive ep).1, ep)

/-- A `$NAME$` environment token over a raw name. -/
def dollarTok (x : List Char) : List Char := '$' :: (x ++ ['$'])

/-!  Concrete fixtures used by witnesses and counterexamples. -/

/-- A neutral host environment all fixtures start from. -/
def env0 : Env :=
  { volumes := []
  , isfile := fun _ => false
  , pathExists := fun _ => false
  , getenv := fun _ => none
  , strftime := fun _ _ => ""
  , now := 0
  , load := fun _ => .parsed none
  , returncode := 0 }

/-- An invalid job: the required `name` key is missing. -/
def jBad : JobDesc :=
  { name := none
  , source := some ⟨some "C:\\data", none, none, none⟩
  , destination := some ⟨some "D:\\out", none, none, none⟩
  , settings := none, robocopy := none }

def envW1 : Env :=
  { env0 with isfile := fun _ => true, load := fun _ => .parsed (some jBad) }

/-- Volume set whose first serial match has an empty mount path. -/
def volsC2 : List Volume := [⟨"", "S", "X"⟩, ⟨"E:", "T", "N"⟩]

def locC2 : Location := ⟨some "p", some "S", some "N", none⟩

def volsW2 : List Volume :=
  [⟨"E:", "AAAA1111", "KINGSTON"⟩, ⟨"F:", "BBBB2222", "BACKUP"⟩]

def locW2 : Location := ⟨some "p", some "ZZZZ9999", some "BACKUP", none⟩

/-- Source carrying identity criteria AND an absolute literal path with
its own embedded drive specifier. -/
def srcC4 : Location := ⟨some "D:\\data", some "SER1", none, none⟩

def dstC4 : Location := ⟨some "out", none, none, none⟩

def jC4 : JobDesc :=
  { name := some "x", source := some srcC4, destination := some dstC4
  , settings := none, robocopy := none }

def envC4 : Env :=
  { env0 with volumes := [⟨"E:", "SER1", "LBL"⟩], pathExists := fun _ => true }

def stC4 : JobState := DefaultJobSettings envC4 jC4

def envC6 : Env :=
  { env0 with isfile := fun _ => true, load := fun _ => .ioError 5 }

/-- Job whose source path references `$timestamp$` and whose log path
also references it. -/
def jC7 : JobDesc :=
  { name := some "t"
  , source := some ⟨some "C:\\in\\$timestamp$", none, none, none⟩
  , destination := some ⟨some "C:\\out", none, none, none⟩
  , settings := none
  , robocopy := some ⟨none, some "$timestamp$.log", none⟩ }

def envC7 : Env :=
  { env0 with
    pathExists := fun _ => true,
    strftime := fun t _ => (List.replicate t 'x').asString, now := 3 }

/-- The state BuildJob produces for `jC7` under `envC7`. -/
def stC7 : JobState :=
  { desc := jC7
  , run :=
    { options := ["/LOG:xxx.log"], file_types := "*.*"
    , time_format := "%Y-%m-%dT%H%M%S%z", time := 3
    , src_path := "C:\\in\\$timestamp$", dst_path := "C:\\out"
    , src_drive := "C:", dst_drive := "C:" } }

def gW8 : String → Option String :=
  fun v => if v = "USERNAME" then some "dc" else none

/-- A well-formed job with no criteria and no flags. -/
def jGood : JobDesc :=
  { name := some "good"
  , source := some ⟨some "C:\\data", none, none, none⟩
  , destination := some ⟨some "D:\\out", none, none, none⟩
  , settings := none, robocopy := none }

def envW9 : Env :=
  { env0 with
    isfile := fun _ => true, pathExists := fun _ => true,
    load := fun f => if f = "b.yaml" then .parsed none else .parsed (some jGood) }

/-- A job whose source and destination both carry flag templates. -/
def jC10 : JobDesc :=
  { name := some "flagjob"
  , source := some ⟨some "C:\\data", none, none, some "$drive$\\FLAG.TXT"⟩
  , destination := some ⟨some "D:\\out", none, none, some "$path$\\F2.TXT"⟩
  , settings := none, robocopy := none }

def envC10 : Env :=
  { env0 with
    isfile := fun _ => true, pathExists := fun _ => true,
    load := fun _ => .parsed (some jC10) }

/-- The state BuildJob produces for `jC10` under `envC10`. -/
def stC10 : JobState :=
  { desc := jC10
  , run :=
    { options := [], file_types := "*.*"
    , time_format := "%Y-%m-%dT%H%M%S%z", time := 0
    , src_path := "C:\\data", dst_path := "D:\\out"
    , src_drive := "C:", dst_drive := "D:" } }

def envW5 : Env := { env0 with isfile := fun s => s = "E:\\FLAG.TXT" }

def locW5 : Location := ⟨none, none, none, some "$drive$\\FLAG.TXT"⟩

/-!  Helper lemmas about the Python string primitives. -/

theorem pyReplaceAux_nil (rep pat : List Char) (fuel : Nat) :
    pyReplaceAux rep pat fuel [] = [] := by
  cases fuel with
  | zero => rfl
  | succ n =>
    cases pat with
    | nil => rfl
    | cons c cs => rfl

theorem pyReplaceAux_succ (rep pat : List Char) (n : Nat) (s : List Char) :
    pyReplaceAux rep pat (n + 1) s =
      if pat ≠ [] ∧ pat.isPrefixOf s then
        rep ++ pyReplaceAux rep pat n (s.drop pat.length)
      else
        match s with
        | [] => []
        | c :: rest => c :: pyReplaceAux rep pat n rest := rfl

theorem not_infix_pyReplaceAux (rep pat : List Char) :
    ∀ (fuel : Nat) (s : List Char), ¬ pat <:+: s →
      pyReplaceAux rep pat fuel s = s := by
  intro fuel
  induction fuel with
  | zero => intro s _; rfl
  | succ n ih =>
    intro s h
    rw [pyReplaceAux_succ]
    have hc : ¬ (pat ≠ [] ∧ pat.isPrefixOf s) := by
      rintro ⟨-, hp⟩
      exact h (List.isPrefixOf_iff_prefix.mp hp).isInfix
    rw [if_neg hc]
    cases s with
    | nil => rfl
    | cons c rest =>
      have hr : ¬ pat <:+: rest := fun hi =>
        h (hi.trans (List.suffix_cons c rest).isInfix)
      show c :: pyReplaceAux rep pat n rest = c :: rest
      rw [ih rest hr]

theorem pyReplace_not_infix (s pat rep : String)
    (h : ¬ pat.data <:+: s.data) : pyReplace s pat rep = s := by
  unfold pyReplace
  rw [not_infix_pyReplaceAux _ _ _ _ h]

theorem pyReplace_whole (s rep : String) (h : s.data ≠ []) :
    pyReplace s s rep = rep := by
  unfold pyReplace
  cases hd : s.data with
  | nil => exact absurd hd h
  | cons c rest =>
    rw [List.length_cons, pyReplaceAux_succ,
      if_pos ⟨by simp, List.isPrefixOf_iff_prefix.mpr List.prefix_rfl⟩,
      List.drop_length, pyReplaceAux_nil, List.append_nil]

theorem data_dollar_pat (v : String) :
    ("$" ++ v ++ "$").data = dollarTok v.data := by
  have h1 : ("$" : String).data = ['$'] := rfl
  simp [dollarTok, String.data_append, h1]

theorem dollar_pat_ne_nil (v : String) : ("$" ++ v ++ "$").data ≠ [] := by
  rw [data_dollar_pat]
  simp [dollarTok]

theorem string_data_inj {s t : String} (h : s.data = t.data) : s = t := by
  cases s
  cases t
  exact congrArg String.mk h

theorem noDollar_append_eq (x : List Char) :
    ∀ (y t : List Char), '$' ∉ x → '$' ∉ y →
      x ++ '$' :: t = y ++ ['$'] → x = y := by
  induction x with
  | nil =>
    intro y t _ hy h
    cases y with
    | nil => rfl
    | cons c y' =>
      rw [List.nil_append, List.cons_append] at h
      have hc : c = '$' := (List.cons.injEq _ _ _ _ ▸ h).1.symm
      exact absurd (hc ▸ List.mem_cons_self c y') hy
  | cons c x' ih =>
    intro y t hx hy h
    cases y with
    | nil =>
      rw [List.cons_append, List.nil_append] at h
      have hc : c = '$' := by
        have := congrArg (fun l => l.head?) h
        simpa using this
      exact absurd (hc ▸ List.mem_cons_self c x') hx
    | cons c' y' =>
      rw [List.cons_append, List.cons_append] at h
      have h1 : c = c' := (List.cons.injEq _ _ _ _ ▸ h).1
      have h2 : x' ++ '$' :: t = y' ++ ['$'] := (List.cons.injEq _ _ _ _ ▸ h).2
      rw [h1, ih y' t (fun hm => hx (List.mem_cons_of_mem _ hm))
        (fun hm => hy (List.mem_cons_of_mem _ hm)) h2]

theorem dollar_infix_eq (x y : List Char) (hx : '$' ∉ x) (hy : '$' ∉ y)
    (h : dollarTok x <:+: dollarTok y) : x = y := by
  obtain ⟨s, t, hst⟩ := h
  have hcx : (dollarTok x).count '$' = 2 := by
    simp [dollarTok, List.count_append, List.count_cons,
      List.count_eq_zero_of_not_mem hx]
  have hcy : (dollarTok y).count '$' = 2 := by
    simp [dollarTok, List.count_append, List.count_cons,
      List.count_eq_zero_of_not_mem hy]
  have hcount : s.count '$' + ((dollarTok x).count '$' + t.count '$') = 2 := by
    rw [← hcy, ← hst]
    simp [List.count_append]
  rw [hcx] at hcount
  have hs0 : s.count '$' = 0 := by omega
  have hsmem : '$' ∉ s := List.count_eq_zero.mp hs0
  cases s with
  | cons c s' =>
    exfalso
    have hc : c = '$' := by
      have := congrArg (fun l => l.head?) hst
      simpa [dollarTok] using this
    exact hsmem (hc ▸ List.mem_cons_self c s')
  | nil =>
    rw [List.nil_append] at hst
    have hst' : x ++ '$' :: t = y ++ ['$'] := by
      have := hst
      simp only [dollarTok, List.cons_append, List.cons.injEq] at this
      rw [List.append_assoc] at this
      exact this.2
    exact noDollar_append_eq x y t hx hy hst'

theorem expandList_noop (g : String → Option String) (vars : List String)
    (p : String)
    (h : ∀ var ∈ vars, g var = none ∨ ¬ dollarTok var.data <:+: p.data) :
    expandList g vars p = p := by
  induction vars with
  | nil => rfl
  | cons var rest ih =>
    rw [expandList]
    rcases h var (List.mem_cons_self _ _) with hg | hni
    · rw [hg]
      exact ih (fun v hv => h v (List.mem_cons_of_mem _ hv))
    · cases hg : g var with
      | none => exact ih (fun v hv => h v (List.mem_cons_of_mem _ hv))
      | some w =>
        have hrw : pyReplace p ("$" ++ var ++ "$") w = p :=
          pyReplace_not_infix _ _ _ (by rw [data_dollar_pat]; exact hni)
        show expandList g rest (pyReplace p ("$" ++ var ++ "$") w) = p
        rw [hrw]
        exact ih (fun v hv => h v (List.mem_cons_of_mem _ hv))

theorem expandList_hit (g : String → Option String) (vars : List String)
    (nm v : String) (hmem : nm ∈ vars) (hg : g nm = some v)
    (hnm : '$' ∉ nm.data)
    (hfree : ∀ var ∈ vars, '$' ∉ var.data)
    (hv : ∀ var ∈ vars, ¬ dollarTok var.data <:+: v.data) :
    expandList g vars ("$" ++ nm ++ "$") = v := by
  induction vars with
  | nil => cases hmem
  | cons var rest ih =>
    rw [expandList]
    by_cases hvar : var = nm
    · subst hvar
      rw [hg]
      show expandList g rest (pyReplace ("$" ++ var ++ "$") ("$" ++ var ++ "$") v) = v
      rw [pyReplace_whole _ _ (dollar_pat_ne_nil var)]
      exact expandList_noop g rest v
        (fun u hu => Or.inr (hv u (List.mem_cons_of_mem _ hu)))
    · have hmem' : nm ∈ rest := (List.mem_cons.mp hmem).resolve_left
        (fun hh => hvar hh.symm)
      have hstep : ∀ w, pyReplace ("$" ++ nm ++ "$") ("$" ++ var ++ "$") w =
          ("$" ++ nm ++ "$") := by
        intro w
        refine pyReplace_not_infix _ _ _ ?_
        rw [data_dollar_pat, data_dollar_pat]
        intro hin
        exact hvar (string_data_inj
          (dollar_infix_eq _ _ (hfree var (List.mem_cons_self _ _)) hnm hin))
      cases hg2 : g var with
      | none =>
        exact ih hmem' (fun u hu => hfree u (List.mem_cons_of_mem _ hu))
          (fun u hu => hv u (List.mem_cons_of_mem _ hu))
      | some w =>
        show expandList g rest (pyReplace ("$" ++ nm ++ "$") ("$" ++ var ++ "$") w) = v
        rw [hstep w]
        exact ih hmem' (fun u hu => hfree u (List.mem_cons_of_mem _ hu))
          (fun u hu => hv u (List.mem_cons_of_mem _ hu))

theorem valid_vars_dollar_free : ∀ var ∈ VALID_ENV_VARS, '$' ∉ var.data := by
  decide

theorem data_asString (l : List Char) : l.asString.data = l := rfl

/-- The first component of `splitdrive` is itself drive-shaped: parsing
a drive out of an already-parsed drive is the identity. -/
theorem splitdrive_fst_idem (p : String) :
    (splitdrive (splitdrive p).1).1 = (splitdrive p).1 := by
  unfold splitdrive
  simp only [data_asString]
  cases hp : p.data with
  | nil => rfl
  | cons c l =>
    cases l with
    | nil => rfl
    | cons c2 rest =>
      by_cases h2 : c2 = ':'
      · subst h2
        simp [splitdriveL]
      · simp [splitdriveL, h2]

/-!  Structural lemmas about the pipeline stages. -/

theorem parseSettings_desc (st : JobState) : (ParseSettings st).desc = st.desc := by
  unfold ParseSettings
  cases st.desc.settings.bind (fun s => s.time_format) <;> rfl

theorem parseSettings_run (st : JobState) :
    (ParseSettings st).run.time = st.run.time ∧
    (ParseSettings st).run.options = st.run.options ∧
    (ParseSettings st).run.file_types = st.run.file_types ∧
    (ParseSettings st).run.src_path = st.run.src_path ∧
    (ParseSettings st).run.dst_path = st.run.dst_path ∧
    (ParseSettings st).run.src_drive = st.run.src_drive ∧
    (ParseSettings st).run.dst_drive = st.run.dst_drive := by
  unfold ParseSettings
  cases st.desc.settings.bind (fun s => s.time_format) <;>
    exact ⟨rfl, rfl, rfl, rfl, rfl, rfl, rfl⟩

theorem parseRobo_preserve (env : Env) (st : JobState) :
    (ParseRobocopyOptions env st).desc = st.desc ∧
    (ParseRobocopyOptions env st).run.time = st.run.time ∧
    (ParseRobocopyOptions env st).run.time_format = st.run.time_format ∧
    (ParseRobocopyOptions env st).run.src_path = st.run.src_path ∧
    (ParseRobocopyOptions env st).run.dst_path = st.run.dst_path ∧
    (ParseRobocopyOptions env st).run.src_drive = st.run.src_drive ∧
    (ParseRobocopyOptions env st).run.dst_drive = st.run.dst_drive := by
  cases hro : st.desc.robocopy with
  | none => simp [ParseRobocopyOptions, hro]
  | some r =>
    cases hopt : r.options <;> cases hlog : r.log <;> cases hfil : r.files <;>
      simp [ParseRobocopyOptions, hro, hopt, hlog, hfil]

/-- ParseLocations decomposes into two independent per-location
resolutions followed by the source-existence check.  This is the
independence property of the spec made precise. -/
theorem parseLocations_spec (env : Env) (st : JobState) (src dst : Location)
    (sp dp : String)
    (hs : st.desc.source = some src) (hsp : src.path = some sp)
    (hd : st.desc.destination = some dst) (hdp : dst.path = some dp) :
    ParseLocations env st =
      match ResolveLocationSpec env src with
      | .error e => .error e
      | .ok s =>
        match ResolveLocationSpec env dst with
        | .error e => .error e
        | .ok d =>
          if env.pathExists s.2 then
            .ok { st with run := { st.run with
              src_path := s.2, dst_path := d.2,
              src_drive := s.1, dst_drive := d.1 } }
          else .error (.robo ("Source does not exist: " ++ s.2)) := by
  simp only [ParseLocations, ResolveLocationSpec, hs, hsp, hd, hdp]
  by_cases hc1 : (src.serial.isSome || src.name.isSome) = true
  · simp only [hc1]
    cases hr1 : ResolveDriveLetter env.volumes src with
    | error e => simp
    | ok dr =>
      by_cases hc2 : (dst.serial.isSome || dst.name.isSome) = true
      · simp only [hc2]
        cases hr2 : ResolveDriveLetter env.volumes dst with
        | error e => simp
        | ok dr2 => simp
      · simp only [Bool.not_eq_true] at hc2
        simp only [hc2]
        simp
  · simp only [Bool.not_eq_true] at hc1
    simp only [hc1]
    by_cases hc2 : (dst.serial.isSome || dst.name.isSome) = true
    · simp only [hc2]
      cases hr2 : ResolveDriveLetter env.volumes dst with
      | error e => simp
      | ok dr2 => simp
    · simp only [Bool.not_eq_true] at hc2
      simp only [hc2]
      simp

theorem parseLocations_ok (env : Env) (st st' : JobState)
    (h : ParseLocations env st = .ok st') :
    st'.desc = st.desc ∧ st'.run.time = st.run.time ∧
    st'.run.time_format = st.run.time_format ∧
    st'.run.options = st.run.options ∧
    st'.run.file_types = st.run.file_types := by
  unfold ParseLocations at h
  dsimp only at h
  repeat' split at h
  any_goals exact Except.noConfusion h
  all_goals (cases h; exact ⟨rfl, rfl, rfl, rfl, rfl⟩)

theorem validate_ok_fields (j : JobDesc) (b : Bool)
    (h : ValidateJob j = .ok b) :
    ∃ src sp dst dp, j.source = some src ∧ src.path = some sp ∧
      j.destination = some dst ∧ dst.path = some dp := by
  cases hname : j.name with
  | none => simp [ValidateJob, hname] at h
  | some nm =>
    cases hsrc : j.source with
    | none => simp [ValidateJob, hname, hsrc] at h
    | some s =>
      cases hdst : j.destination with
      | none => simp [ValidateJob, hname, hsrc, hdst] at h
      | some d =>
        cases hsp : s.path with
        | none => simp [ValidateJob, hname, hsrc, hdst, hsp] at h
        | some sp =>
          cases hdp : d.path with
          | none => simp [ValidateJob, hname, hsrc, hdst, hsp, hdp] at h
          | some dp => exact ⟨s, sp, d, dp, rfl, hsp, rfl, hdp⟩

theorem validate_err_robo (j : JobDesc) (e : PyExc)
    (h : ValidateJob j = .error e) : ∃ m, e = PyExc.robo m := by
  unfold ValidateJob at h
  repeat' split at h
  any_goals exact Except.noConfusion h
  all_goals (injection h with h2; exact ⟨_, h2.symm⟩)

theorem resolveDrive_err_robo (vols : List Volume) (loc : Location) (e : PyExc)
    (h : ResolveDriveLetter vols loc = .error e) : ∃ m, e = PyExc.robo m := by
  unfold ResolveDriveLetter nameLookup driveNotFound at h
  dsimp only at h
  repeat' split at h
  any_goals exact Except.noConfusion h
  all_goals (injection h with h2; exact ⟨_, h2.symm⟩)

theorem resolveLocSpec_err_robo (env : Env) (loc : Location) (sp : String)
    (e : PyExc) (hp : loc.path = some sp)
    (h : ResolveLocationSpec env loc = .error e) : ∃ m, e = PyExc.robo m := by
  unfold ResolveLocationSpec at h
  rw [hp] at h
  dsimp only at h
  split at h
  · split at h
    · exact Except.noConfusion h
    · injection h with h2
      subst h2
      exact resolveDrive_err_robo _ _ _ (by assumption)
  · exact Except.noConfusion h

theorem parseLocations_fields (env : Env) (st st' : JobState)
    (h : ParseLocations env st = .ok st') :
    ∃ src sp dst dp, st.desc.source = some src ∧ src.path = some sp ∧
      st.desc.destination = some dst ∧ dst.path = some dp := by
  unfold ParseLocations at h
  dsimp only at h
  repeat' split at h
  any_goals exact Except.noConfusion h
  all_goals
    exact ⟨_, _, _, _, by assumption, by assumption, by assumption, by assumption⟩

/-- What a successful BuildJob yields: the description is untouched, the
timestamp is the instant captured at default-settings time, and the four
path/drive fields agree with the independent per-location resolution. -/
theorem buildJob_paths (env : Env) (j : JobDesc) (st : JobState)
    (h : BuildJob env j = .ok st) :
    st.desc = j ∧ st.run.time = env.now ∧
    ∃ src sp dst dp s d,
      j.source = some src ∧ src.path = some sp ∧
      j.destination = some dst ∧ dst.path = some dp ∧
      ResolveLocationSpec env src = .ok s ∧
      ResolveLocationSpec env dst = .ok d ∧
      st.run.src_drive = s.1 ∧ st.run.src_path = s.2 ∧
      st.run.dst_drive = d.1 ∧ st.run.dst_path = d.2 ∧
      env.pathExists s.2 = true := by
  unfold BuildJob at h
  have hdesc0 : (ParseSettings (DefaultJobSettings env j)).desc = j := by
    rw [parseSettings_desc]; rfl
  cases hloc : ParseLocations env (ParseSettings (DefaultJobSettings env j)) with
  | error e => rw [hloc] at h; exact Except.noConfusion h
  | ok stL =>
    rw [hloc] at h
    injection h with h
    subst h
    obtain ⟨src, sp, dst, dp, hsrc, hsp, hdst, hdp⟩ :=
      parseLocations_fields _ _ _ hloc
    have hspec := parseLocations_spec env _ src dst sp dp hsrc hsp hdst hdp
    rw [hspec] at hloc
    split at hloc
    · exact Except.noConfusion hloc
    rename_i s hr1
    split at hloc
    · exact Except.noConfusion hloc
    rename_i d hr2
    split at hloc
    case isFalse => exact Except.noConfusion hloc
    case isTrue hex =>
      injection hloc with hloc
      subst hloc
      obtain ⟨hrdesc, hrtime, hrtf, hrsp, hrdp, hrsd, hrdd⟩ :=
        parseRobo_preserve env _
      refine ⟨hrdesc.trans hdesc0, hrtime.trans ((parseSettings_run _).1),
        src, sp, dst, dp, s, d, ?_, hsp, ?_, hdp, hr1, hr2,
        hrsd, hrsp, hrdd, hrdp, hex⟩
      · rw [← hdesc0]; exact hsrc
      · rw [← hdesc0]; exact hdst

/-- After successful validation, the only exceptions BuildJob can
produce are RoboExceptions (drive not found, source missing). -/
theorem buildJob_err_robo (env : Env) (j : JobDesc) (b : Bool) (e : PyExc)
    (hv : ValidateJob j = .ok b) (h : BuildJob env j = .error e) :
    ∃ m, e = PyExc.robo m := by
  obtain ⟨src, sp, dst, dp, hsrc, hsp, hdst, hdp⟩ := validate_ok_fields j b hv
  unfold BuildJob at h
  have hdesc0 : (ParseSettings (DefaultJobSettings env j)).desc = j := by
    rw [parseSettings_desc]; rfl
  cases hloc : ParseLocations env (ParseSettings (DefaultJobSettings env j)) with
  | ok stL => rw [hloc] at h; exact Except.noConfusion h
  | error e2 =>
    rw [hloc] at h
    injection h with h
    subst h
    have hspec := parseLocations_spec env _ src dst sp dp
      (by rw [hdesc0]; exact hsrc) hsp (by rw [hdesc0]; exact hdst) hdp
    rw [hspec] at hloc
    split at hloc
    · injection hloc with h2
      subst h2
      exact resolveLocSpec_err_robo env src sp _ hsp (by assumption)
    rename_i s hr1
    split at hloc
    · injection hloc with h2
      subst h2
      exact resolveLocSpec_err_robo env dst dp _ hdp (by assumption)
    rename_i d hr2
    split at hloc
    case isTrue => exact Except.noConfusion hloc
    case isFalse hex =>
      injection hloc with h2
      exact ⟨_, h2.symm⟩

/-- Claim C1: for every job description in which `name` is missing, or
the `source` section is missing, or the `destination` section is
missing, or either of those sections lacks `path`, ValidateJob fails
with a RoboException, RunJob returns false for that job file, and
DoRobocopy is never invoked. -/
theorem c1_validation_failure_blocks_execution (env : Env) (f : String)
    (dry : Bool) (j : JobDesc)
    (hload : env.load f = .parsed (some j))
    (hbad : j.name = none ∨ j.source = none ∨ j.destination = none ∨
      (∃ s, j.source = some s ∧ s.path = none) ∨
      (∃ d, j.destination = some d ∧ d.path = none)) :
    (∃ m, ValidateJob j = .error (.robo m)) ∧
    (RunJob env f dry).1 = .result false ∧
    (RunJob env f dry).2.robocopyCalled = false := by
  have hval : ∃ m, ValidateJob j = .error (.robo m) := by
    rcases hbad with h | h | h | ⟨s, hs, hp⟩ | ⟨d, hd, hp⟩
    · exact ⟨"A name is required", by simp [ValidateJob, h]⟩
    · by_cases hn : j.name = none
      · exact ⟨"A name is required", by simp [ValidateJob, hn]⟩
      · exact ⟨"Source settings missing!", by simp [ValidateJob, hn, h]⟩
    · by_cases hn : j.name = none
      · exact ⟨"A name is required", by simp [ValidateJob, hn]⟩
      · cases hs : j.source with
        | none =>
          exact ⟨"Source settings missing!", by simp [ValidateJob, hn, hs]⟩
        | some s =>
          exact ⟨"Destination settings missing!",
            by simp [ValidateJob, hn, hs, h]⟩
    · by_cases hn : j.name = none
      · exact ⟨"A name is required", by simp [ValidateJob, hn]⟩
      · cases hd : j.destination with
        | none =>
          exact ⟨"Destination settings missing!",
            by simp [ValidateJob, hn, hs, hd]⟩
        | some d =>
          exact ⟨"Source path not defined",
            by simp [ValidateJob, hn, hs, hd, hp]⟩
    · by_cases hn : j.name = none
      · exact ⟨"A name is required", by simp [ValidateJob, hn]⟩
      · cases hs2 : j.source with
        | none =>
          exact ⟨"Source settings missing!", by simp [ValidateJob, hn, hs2]⟩
        | some s2 =>
          by_cases hsp2 : s2.path = none
          · exact ⟨"Source path not defined",
              by simp [ValidateJob, hn, hs2, hd, hsp2]⟩
          · exact ⟨"Destination path not defined",
              by simp [ValidateJob, hn, hs2, hd, hsp2, hp]⟩
  obtain ⟨m, hm⟩ := hval
  refine ⟨⟨m, hm⟩, ?_, ?_⟩ <;> by_cases hf : env.isfile f <;>
    simp [RunJob, hf, hload, hm]

/-- Claim C1 witness at a concrete invalid job description. -/
theorem c1_witness :
    (∃ m, ValidateJob jBad = .error (.robo m)) ∧
    (RunJob envW1 "job.yaml" false).1 = .result false ∧
    (RunJob envW1 "job.yaml" false).2.robocopyCalled = false :=
  c1_validation_failure_blocks_execution envW1 "job.yaml" false jBad rfl
    (Or.inl rfl)

/-- Claim C3: DoRobocopy returns true without spawning a process in dry
run; otherwise it spawns and succeeds exactly when the exit code is
below 8; in particular exit codes 0 and 7 give true, 8 and 16 false. -/
theorem c3_dry_run_and_exit_threshold (env : Env) (st : JobState) :
    DoRobocopy env st true = (true, false) ∧
    ((DoRobocopy env st false).1 = true ↔ env.returncode < 8) ∧
    (DoRobocopy env st false).2 = true ∧
    DoRobocopy { env with returncode := 0 } st false = (true, true) ∧
    DoRobocopy { env with returncode := 7 } st false = (true, true) ∧
    DoRobocopy { env with returncode := 8 } st false = (false, true) ∧
    DoRobocopy { env with returncode := 16 } st false = (false, true) := by
  refine ⟨rfl, ?_, ?_, rfl, rfl, rfl, rfl⟩
  · by_cases h : env.returncode ≥ 8 <;> simp [DoRobocopy, h] <;> omega
  · by_cases h : env.returncode ≥ 8 <;> simp [DoRobocopy, h]

/-- Claim C5: with no `flag` key the Safety Gate passes unconditionally;
otherwise the template has `$drive$` and `$path$` substituted and the
result of the file-existence test is returned directly; in particular
the spec example with `$drive$\FLAG.TXT` and drive `E:` tests
`E:\FLAG.TXT`. -/
theorem c5_safety_gate (env : Env) (loc : Location) (p : String) :
    (loc.flag = none → CheckFlag env loc p = (true, none)) ∧
    (∀ t, loc.flag = some t →
      CheckFlag env loc p =
        (env.isfile (pyReplace (pyReplace t "$drive$" (splitdrive p).1) "$path$" p),
         some (pyReplace (pyReplace t "$drive$" (splitdrive p).1) "$path$" p))) ∧
    (loc.flag = some "$drive$\\FLAG.TXT" → p = "E:" →
      CheckFlag env loc p = (env.isfile "E:\\FLAG.TXT", some "E:\\FLAG.TXT")) := by
  refine ⟨?_, ?_, ?_⟩
  · intro h
    simp [CheckFlag, h]
  · intro t h
    simp [CheckFlag, h]
  · intro h hp
    subst hp
    have hsub : pyReplace (pyReplace "$drive$\\FLAG.TXT" "$drive$"
        (splitdrive "E:").1) "$path$" "E:" = "E:\\FLAG.TXT" := by decide
    simp only [CheckFlag, h]
    rw [hsub]

/-- Claim C5 witness: concrete flag template checked on drive `E:`. -/
theorem c5_witness : CheckFlag envW5 locW5 "E:" = (true, some "E:\\FLAG.TXT") :=
  ((c5_safety_gate envW5 locW5 "E:").2.2 rfl rfl).trans (by decide)

/-- Claim C2 (amended): with at least one criterion present, the
resolver returns a drive exactly when the spec-side resolution does:
the serial criterion is consulted first and yields the first exact
serial match whose mount path is non-empty (a matched volume with an
empty mount path is falsy in Python and is treated as no match), then
the label criterion likewise; when neither yields a drive the resolver
fails with a RoboException carrying the list of criteria attempted. -/
theorem c2_amended_resolver (vols : List Volume) (loc : Location)
    (h : loc.serial.isSome = true ∨ loc.name.isSome = true) :
    (∀ d, ResolveDriveLetter vols loc = .ok d ↔ ResolveSpec vols loc = some d) ∧
    (ResolveSpec vols loc = none →
      ResolveDriveLetter vols loc =
        .error (.robo ("Could not find drive letter, tried: " ++
          String.intercalate ", " (triedCriteria loc)))) := by
  constructor
  · intro d0
    cases hs : loc.serial with
    | none =>
      cases hn : loc.name with
      | none =>
        simp [ResolveDriveLetter, nameLookup, driveNotFound, ResolveSpec, hs, hn]
      | some n =>
        cases ht : truthyDrive (FindDriveFromName vols n) <;>
          simp [ResolveDriveLetter, nameLookup, driveNotFound, ResolveSpec,
            hs, hn, ht]
    | some s =>
      cases ht : truthyDrive (FindDriveFromSerial vols s) with
      | some d => simp [ResolveDriveLetter, ResolveSpec, hs, ht]
      | none =>
        cases hn : loc.name with
        | none =>
          simp [ResolveDriveLetter, nameLookup, driveNotFound, ResolveSpec,
            hs, hn, ht]
        | some n =>
          cases ht2 : truthyDrive (FindDriveFromName vols n) <;>
            simp [ResolveDriveLetter, nameLookup, driveNotFound, ResolveSpec,
              hs, hn, ht, ht2]
  · intro hnone
    cases hs : loc.serial with
    | none =>
      cases hn : loc.name with
      | none =>
        simp [ResolveDriveLetter, nameLookup, driveNotFound, triedCriteria,
          hs, hn]
      | some n =>
        cases ht : truthyDrive (FindDriveFromName vols n) with
        | some d => simp [ResolveSpec, hs, hn, ht] at hnone
        | none =>
          simp [ResolveDriveLetter, nameLookup, driveNotFound, triedCriteria,
            hs, hn, ht]
    | some s =>
      cases ht : truthyDrive (FindDriveFromSerial vols s) with
      | some d => simp [ResolveSpec, hs, ht] at hnone
      | none =>
        cases hn : loc.name with
        | none =>
          simp [ResolveDriveLetter, nameLookup, driveNotFound, triedCriteria,
            hs, hn, ht]
        | some n =>
          cases ht2 : truthyDrive (FindDriveFromName vols n) with
          | some d => simp [ResolveSpec, hs, hn, ht, ht2] at hnone
          | none =>
            simp [ResolveDriveLetter, nameLookup, driveNotFound, triedCriteria,
              hs, hn, ht, ht2]

/-- Claim C2 counterexample: the serial criterion matches the first
volume (mount path empty), yet the resolver does not return that
mount path: the empty string is falsy in Python, so resolution falls
through to the label criterion and returns a different volume. -/
theorem c2_counterexample :
    FindDriveFromSerial volsC2 "S" = some "" ∧
    locC2.serial = some "S" ∧
    ResolveDriveLetter volsC2 locC2 = .ok "E:" ∧
    ("E:" : String) ≠ "" := by decide

/-- Claim C2 (amended) witness: serial criterion not matching, label
criterion matching, so resolution succeeds via the label. -/
theorem c2_witness : ResolveDriveLetter volsW2 locW2 = .ok "F:" :=
  ((c2_amended_resolver volsW2 locW2 (Or.inl rfl)).1 "F:").mpr (by decide)

/-- Claim C4 (amended): location resolution proceeds independently for
source and destination: ParseLocations equals the composition of the
two per-location resolutions followed by the source-existence check
(SourceNotFound when the resolved source path does not exist), and the
result never consults the existence of any path other than the
resolved source path — in particular never the destination.  Identity
criteria determine the drive via the Drive Resolver and the drive is
joined with the literal path under Windows join rules, under which a
literal path that is itself absolute and carries its own drive
specifier keeps its own drive; with no criteria the drive is parsed
out of the literal path. -/
theorem c4_location_resolution (env : Env) (st : JobState)
    (src dst : Location) (sp dp : String)
    (hs : st.desc.source = some src) (hsp : src.path = some sp)
    (hd : st.desc.destination = some dst) (hdp : dst.path = some dp) :
    (ParseLocations env st =
      match ResolveLocationSpec env src with
      | .error e => .error e
      | .ok s =>
        match ResolveLocationSpec env dst with
        | .error e => .error e
        | .ok d =>
          if env.pathExists s.2 then
            .ok { st with run := { st.run with
              src_path := s.2, dst_path := d.2,
              src_drive := s.1, dst_drive := d.1 } }
          else .error (.robo ("Source does not exist: " ++ s.2)))
    ∧ (∀ env2 : Env, env2.volumes = env.volumes → env2.getenv = env.getenv →
        (∀ s, ResolveLocationSpec env src = .ok s →
          env2.pathExists s.2 = env.pathExists s.2) →
        ParseLocations env2 st = ParseLocations env st) := by
  refine ⟨parseLocations_spec env st src dst sp dp hs hsp hd hdp, ?_⟩
  intro env2 hvols hget hpe
  have hcong : ∀ loc : Location,
      ResolveLocationSpec env2 loc = ResolveLocationSpec env loc := by
    intro loc
    unfold ResolveLocationSpec
    simp only [hvols, hget]
  rw [parseLocations_spec env2 st src dst sp dp hs hsp hd hdp,
    parseLocations_spec env st src dst sp dp hs hsp hd hdp,
    hcong src, hcong dst]
  cases h1 : ResolveLocationSpec env src with
  | error e => rfl
  | ok s =>
    cases h2 : ResolveLocationSpec env dst with
    | error e => rfl
    | ok d =>
      show (if env2.pathExists s.2 then _ else _) =
        (if env.pathExists s.2 then _ else _)
      rw [hpe s h1]

/-- Claim C4 counterexample: identity criteria are present (the serial
matches the volume mounted at `E:`) but the literal source path
`D:\data` is absolute with its own embedded drive specifier, and the
resolved source path comes out as `D:\data` — the embedded drive wins
the join and the Drive Resolver drive `E:` does not prefix the
resolved path, contradicting the claimed precedence. -/
theorem c4_counterexample :
    ResolveDriveLetter envC4.volumes srcC4 = .ok "E:" ∧
    (ParseLocations envC4 stC4).toOption.map
      (fun st => (st.run.src_drive, st.run.src_path)) =
      some ("E:", "D:\\data") ∧
    ("E:" : String).data.isPrefixOf ("D:\\data" : String).data = false := by
  decide

/-- Claim C4 (amended) witness: the decomposition instantiated at the
concrete fixture job. -/
theorem c4_witness :
    ParseLocations envC4 stC4 =
      match ResolveLocationSpec envC4 srcC4 with
      | .error e => .error e
      | .ok s =>
        match ResolveLocationSpec envC4 dstC4 with
        | .error e => .error e
        | .ok d =>
          if envC4.pathExists s.2 then
            .ok { stC4 with run := { stC4.run with
              src_path := s.2, dst_path := d.2,
              src_drive := s.1, dst_drive := d.1 } }
          else .error (.robo ("Source does not exist: " ++ s.2)) :=
  (c4_location_resolution envC4 stC4 srcC4 dstC4 "D:\\data" "out"
    rfl rfl rfl rfl).1

/-- Claim C6 (amended): RunJob converts every failure along its
sequence (missing file, permission-denied open, malformed job text,
validation error, drive-resolution or source-existence error, missing
safety flag, execution failure) into a returned boolean — with the one
exception present in the source: an IOError other than
permission-denied raised while opening the job file is re-raised and
propagates past the boundary. -/
theorem c6_runjob_boundary (env : Env) (f : String) (dry : Bool) :
    (∃ b, (RunJob env f dry).1 = .result b) ∨
    (∃ n, n ≠ EACCES ∧ env.load f = .ioError n ∧
      (RunJob env f dry).1 = .raised (.ioError n)) := by
  by_cases hf : env.isfile f
  case neg => exact Or.inl ⟨false, by simp [RunJob, hf]⟩
  case pos =>
    cases hl : env.load f with
    | ioError e =>
      by_cases he : e = EACCES
      · exact Or.inl ⟨false, by simp [RunJob, hf, hl, he]⟩
      · exact Or.inr ⟨e, he, rfl, by simp [RunJob, hf, hl, he]⟩
    | parsed jo =>
      cases jo with
      | none => exact Or.inl ⟨false, by simp [RunJob, hf, hl]⟩
      | some j =>
        cases hv : ValidateJob j with
        | error e =>
          obtain ⟨m, hm⟩ := validate_err_robo j e hv
          subst hm
          exact Or.inl ⟨false, by simp [RunJob, hf, hl, hv]⟩
        | ok b =>
          cases hb : BuildJob env j with
          | error e =>
            obtain ⟨m, hm⟩ := buildJob_err_robo env j b e hv hb
            subst hm
            exact Or.inl ⟨false, by simp [RunJob, hf, hl, hv, hb]⟩
          | ok st =>
            obtain ⟨hdesc, htime, src, sp2, dst, dp2, s, d,
              hj1, hj2, hj3, hj4, hr1, hr2, h7, h8, h9, h10, h11⟩ :=
              buildJob_paths env j st hb
            have hss : st.desc.source = some src := by rw [hdesc]; exact hj1
            have hdd : st.desc.destination = some dst := by
              rw [hdesc]; exact hj3
            cases hc1 : (CheckFlag env src st.run.src_drive).1
            · exact Or.inl ⟨false,
                by simp [RunJob, hf, hl, hv, hb, hss, hdd, hc1]⟩
            · cases hc2 : (CheckFlag env dst st.run.dst_drive).1
              · exact Or.inl ⟨false,
                  by simp [RunJob, hf, hl, hv, hb, hss, hdd, hc1, hc2]⟩
              · exact Or.inl ⟨(DoRobocopy env st dry).1,
                  by simp [RunJob, hf, hl, hv, hb, hss, hdd, hc1, hc2]⟩

/-- Claim C6 counterexample: with the job file present but its open
failing with an IOError whose errno is 5 (EIO, not permission-denied),
RunJob does not return a boolean: the exception is re-raised past the
boundary. -/
theorem c6_counterexample :
    (RunJob envC6 "job.yaml" false).1 = .raised (.ioError 5) ∧
    (∀ b, (RunJob envC6 "job.yaml" false).1 ≠ .result b) := by decide

/-- Claim C7 (amended): `time` is captured exactly once per job — set
to the current instant by DefaultJobSettings and unchanged by the rest
of the pipeline — and the `$timestamp$` expansion the pipeline performs
formats that same instant.  The source and destination paths never
undergo `$timestamp$` expansion: they are independent of the captured
instant and of the formatter altogether. -/
theorem c7_single_timestamp (env : Env) (j : JobDesc) (st : JobState)
    (h : BuildJob env j = .ok st) :
    st.run.time = env.now ∧
    timestampOf env st = env.strftime env.now st.run.time_format ∧
    (∀ n2 fm2 st2,
      BuildJob { env with now := n2, strftime := fm2 } j = .ok st2 →
      st2.run.src_path = st.run.src_path ∧
      st2.run.dst_path = st.run.dst_path) := by
  obtain ⟨hdesc, htime, src, sp, dst, dp, s, d,
    hj1, hj2, hj3, hj4, hr1, hr2, h7, h8, h9, h10, h11⟩ :=
    buildJob_paths env j st h
  refine ⟨htime, by rw [timestampOf, htime], ?_⟩
  intro n2 fm2 st2 h2
  obtain ⟨hdesc2, htime2, src2, sp2, dst2, dp2, s2, d2,
    hj1b, hj2b, hj3b, hj4b, hr1b, hr2b, h7b, h8b, h9b, h10b, h11b⟩ :=
    buildJob_paths _ j st2 h2
  have e1 : src = src2 := Option.some_inj.mp (hj1.symm.trans hj1b)
  have e2 : dst = dst2 := Option.some_inj.mp (hj3.symm.trans hj3b)
  subst e1
  subst e2
  have hcong1 : ResolveLocationSpec { env with now := n2, strftime := fm2 } src =
      ResolveLocationSpec env src := rfl
  have hcong2 : ResolveLocationSpec { env with now := n2, strftime := fm2 } dst =
      ResolveLocationSpec env dst := rfl
  rw [hcong1, hr1] at hr1b
  rw [hcong2, hr2] at hr2b
  injection hr1b with hs2
  injection hr2b with hd2
  subst hs2
  subst hd2
  exact ⟨h8b.trans h8.symm, h10b.trans h10.symm⟩

/-- Claim C7 counterexample: a job whose source path references
`$timestamp$` and whose log path references it too.  The log option
receives the formatted timestamp (`xxx` for the captured instant 3),
but the resolved source path keeps the literal `$timestamp$` token —
the formatted timestamp does not appear there at all. -/
theorem c7_counterexample :
    BuildJob envC7 jC7 = .ok stC7 ∧
    stC7.run.options = ["/LOG:xxx.log"] ∧
    stC7.run.src_path = "C:\\in\\$timestamp$" ∧
    envC7.strftime envC7.now stC7.run.time_format = "xxx" ∧
    ¬ (("xxx" : String).data <:+: stC7.run.src_path.data) := by decide

/-- Claim C7 (amended) witness at the concrete fixture job. -/
theorem c7_witness :
    stC7.run.time = envC7.now ∧
    timestampOf envC7 stC7 = envC7.strftime envC7.now stC7.run.time_format :=
  ⟨(c7_single_timestamp envC7 jC7 stC7 (by decide)).1,
   (c7_single_timestamp envC7 jC7 stC7 (by decide)).2.1⟩

/-- Claim C8: environment expansion expands only `$NAME$` tokens whose
name is in the allow-list and present in the environment; a token whose
name (dollar-free) is outside the allow-list, or allow-listed but
absent from the environment, is left unexpanded, with no error. -/
theorem c8_env_expansion (g : String → Option String) (nm : String)
    (hfree : '$' ∉ nm.data) :
    ((nm ∉ VALID_ENV_VARS ∨ g nm = none) →
      ExpandEnvironmentVars g ("$" ++ nm ++ "$") = "$" ++ nm ++ "$") ∧
    (nm ∈ VALID_ENV_VARS → ∀ v, g nm = some v →
      (∀ var ∈ VALID_ENV_VARS, ¬ dollarTok var.data <:+: v.data) →
      ExpandEnvironmentVars g ("$" ++ nm ++ "$") = v) := by
  constructor
  · intro hout
    unfold ExpandEnvironmentVars
    apply expandList_noop
    intro var hvar
    rcases hout with hnm | hgn
    · right
      rw [data_dollar_pat]
      intro hin
      have hvn : var = nm := string_data_inj
        (dollar_infix_eq _ _ (valid_vars_dollar_free var hvar) hfree hin)
      exact hnm (hvn ▸ hvar)
    · by_cases hv : var = nm
      · subst hv
        exact Or.inl hgn
      · right
        rw [data_dollar_pat]
        intro hin
        exact hv (string_data_inj
          (dollar_infix_eq _ _ (valid_vars_dollar_free var hvar) hfree hin))
  · intro hmem v hg hv
    exact expandList_hit g VALID_ENV_VARS nm v hmem hg hfree
      valid_vars_dollar_free hv

/-- Claim C8 witness: `$FOO$` (outside the allow-list) and `$TMP$`
(allow-listed but absent) stay unexpanded, `$USERNAME$` (allow-listed
and present) expands. -/
theorem c8_witness :
    ExpandEnvironmentVars gW8 ("$" ++ "FOO" ++ "$") = "$" ++ "FOO" ++ "$" ∧
    ExpandEnvironmentVars gW8 ("$" ++ "TMP" ++ "$") = "$" ++ "TMP" ++ "$" ∧
    ExpandEnvironmentVars gW8 ("$" ++ "USERNAME" ++ "$") = "dc" :=
  ⟨(c8_env_expansion gW8 "FOO" (by decide)).1 (Or.inl (by decide)),
   (c8_env_expansion gW8 "TMP" (by decide)).1 (Or.inr (by decide)),
   (c8_env_expansion gW8 "USERNAME" (by decide)).2 (by decide) "dc"
     (by decide) (by decide)⟩

/-- Claim C9: in a batch of three job files where the second is
malformed, the first and third are still run and counted, the second is
counted as exactly one failure, and processing continues to the third
job.  (The extension check uses the leftover glob variable, modelled by
`lastFile`, which in this scenario ends in `.yaml`.) -/
theorem c9_batch_independence (env : Env) (dry : Bool)
    (lastf f1 f2 f3 : String) (b1 b3 : Bool)
    (hext : pyEndsWith lastf ".yaml" = true)
    (h1 : (RunJob env f1 dry).1 = .result b1)
    (h2 : env.isfile f2 = true ∧ env.load f2 = .parsed none)
    (h3 : (RunJob env f3 dry).1 = .result b3) :
    mainLoop env dry lastf [f1, f2, f3] (0, 0) =
      .ok ((cond b1 1 0) + (cond b3 1 0),
           (cond b1 0 1) + 1 + (cond b3 0 1)) := by
  have hrun2 : (RunJob env f2 dry).1 = .result false := by
    simp [RunJob, h2.1, h2.2]
  cases b1 <;> cases b3 <;>
    simp [mainLoop, hext, h1, h3, hrun2]

/-- Claim C9 witness: a concrete batch with a malformed middle job
tallies two successes and one failure. -/
theorem c9_witness :
    mainLoop envW9 false "jobs.yaml" ["a.yaml", "b.yaml", "c.yaml"] (0, 0) =
      .ok (2, 1) :=
  (c9_batch_independence envW9 false "jobs.yaml" "a.yaml" "b.yaml" "c.yaml"
    true true (by decide) (by decide) ⟨by decide, by decide⟩
    (by decide)).trans (by decide)

/-- Claim C10: RunJob invokes the Safety Gate with the resolved drive
identifiers (src_drive, then dst_drive) — never with the fully resolved
paths; for any drive-shaped argument (one that `splitdrive` maps to
itself, as every parsed-out drive is) both the `$drive$` and `$path$`
placeholders of a flag template are replaced by that same string, the
drive identifier. -/
theorem c10_flag_checked_on_drives (env : Env) (f : String) (dry : Bool)
    (j : JobDesc) (st : JobState)
    (hload : env.load f = .parsed (some j))
    (hbuild : BuildJob env j = .ok st) :
    (∃ k ≤ 2, (RunJob env f dry).2.flagArgs =
        ([st.run.src_drive, st.run.dst_drive]).take k ∧
      (env.isfile f = true → ValidateJob j = .ok true → 1 ≤ k)) ∧
    (∀ loc t d0, loc.flag = some t → (splitdrive d0).1 = d0 →
      CheckFlag env loc d0 =
        (env.isfile (pyReplace (pyReplace t "$drive$" d0) "$path$" d0),
         some (pyReplace (pyReplace t "$drive$" d0) "$path$" d0))) ∧
    (∀ p, (splitdrive (splitdrive p).1).1 = (splitdrive p).1) := by
  refine ⟨?_, ?_, splitdrive_fst_idem⟩
  · by_cases hf : env.isfile f
    case neg =>
      refine ⟨0, by omega, by simp [RunJob, hf], ?_⟩
      intro hf2 _
      exact absurd hf2 hf
    case pos =>
      cases hv : ValidateJob j with
      | error e =>
        obtain ⟨m, hm⟩ := validate_err_robo j e hv
        subst hm
        refine ⟨0, by omega, by simp [RunJob, hf, hload, hv], ?_⟩
        intro _ hv2
        exact Except.noConfusion hv2
      | ok b =>
        obtain ⟨hdesc, htime, src, sp, dst, dp, s, d,
          hj1, hj2, hj3, hj4, hr1, hr2, h7, h8, h9, h10, h11⟩ :=
          buildJob_paths env j st hbuild
        have hss : st.desc.source = some src := by rw [hdesc]; exact hj1
        have hdd : st.desc.destination = some dst := by
          rw [hdesc]; exact hj3
        cases hc1 : (CheckFlag env src st.run.src_drive).1
        · exact ⟨1, by omega,
            by simp [RunJob, hf, hload, hv, hbuild, hss, hdd, hc1],
            fun _ _ => by omega⟩
        · cases hc2 : (CheckFlag env dst st.run.dst_drive).1
          · exact ⟨2, by omega,
              by simp [RunJob, hf, hload, hv, hbuild, hss, hdd, hc1, hc2],
              fun _ _ => by omega⟩
          · exact ⟨2, by omega,
              by simp [RunJob, hf, hload, hv, hbuild, hss, hdd, hc1, hc2],
              fun _ _ => by omega⟩
  · intro loc t d0 hflag hshape
    simp only [CheckFlag, hflag]
    rw [hshape]

/-- Claim C10 witness: the concrete flagged job checks its flags on the
drives `C:` and `D:`. -/
theorem c10_witness :
    ∃ k ≤ 2, (RunJob envC10 "job.yaml" false).2.flagArgs =
        ([stC10.run.src_drive, stC10.run.dst_drive]).take k ∧
      (envC10.isfile "job.yaml" = true → ValidateJob jC10 = .ok true → 1 ≤ k) :=
  (c10_flag_checked_on_drives envC10 "job.yaml" false jC10 stC10
    (by decide) (by decide)).1
